import Mathlib

/-!
Verification of the tensor-tree parser and spatial lookup engine of `frads`
(`frads/parsers.py`: `tokenize`, `parse_branch`, `parse_ttree`,
`get_nested_list_levels`, class `TensorTree`; and the 3-coordinate variant
tables `get_border3` / `get_lorder3` of `sundry/parsettree.py`).

The embedding models Python values flowing through this code as `PyVal`
(a float or a nested list), Python exceptions as `PyErr`, and Python floats
as exact rationals: every numeric operation the code performs on query
coordinates (sign tests, adding or subtracting `1/2^n`, comparisons with
`0.5`) is exact on the dyadic rationals exercised here, so `ℚ` is a
faithful model of the float arithmetic involved.
-/

/-- Python exceptions that the tensor-tree code can raise.
`indexError` is `IndexError` (list index out of range), `typeError` is
`TypeError` (`len()` of a float), `valueErrorFloat` is the `ValueError`
from `float(value)`, `valueErrorBrace` is the
`ValueError("Tensor tree data not starting with ...")` of `parse_ttree`,
`valueErrorMax` is the `ValueError` of `max()` on an empty sequence,
`stopIteration` is the `StopIteration` of `next()` on an exhausted token
generator, and `recursionError` models Python's recursion limit (it is
unreachable for the fuel bounds used below). -/
inductive PyErr where
  | indexError
  | typeError
  | valueErrorFloat
  | valueErrorBrace
  | valueErrorMax
  | stopIteration
  | recursionError
deriving Repr, DecidableEq

/-- A Python value manipulated by the tensor-tree code: a float
(modelled as an exact rational) or a list of such values. -/
inductive PyVal where
  | num (q : ℚ)
  | list (xs : List PyVal)

/-- Model of `isinstance(v, float)` for a `PyVal`. -/
def PyVal.isNum : PyVal → Bool
  | .num _ => true
  | .list _ => false

/-! ## Tokenizer

`tokenize` in `frads/parsers.py` scans its input with the regular
expression

  `" +|[-+]?(\d+([.,]\d*)?|[.,]\d+)([eE][-+]?\d+)+|[\d*\.\d+]+|[{}]"`

and yields every match whose first character is not a space or comma.
The four alternatives, tried in order at each position, are:
1. a run of spaces;
2. an optionally signed mantissa followed by ONE OR MORE exponent groups
   (the `+` quantifier on the exponent group is in the source; in
   particular this alternative never matches a signed number without an
   exponent);
3. a run of characters from the character class `[\d*\.\d+]`, i.e.
   digits, `*`, `.` and `+` (inside a class `*` and `+` are literal
   characters, and `-` is NOT in the class);
4. a single `{` or `}`.
`re.finditer` yields non-overlapping matches left to right, restarting
one character further on whenever no alternative matches. -/

/-- Characters of the character class `[\d*\.\d+]` (third alternative). -/
def isClass3 (c : Char) : Bool := c.isDigit || c = '*' || c = '.' || c = '+'

/-- One exponent group `[eE][-+]?\d+` (greedy digits). -/
def expPart (cs : List Char) : Option (List Char × List Char) :=
  match cs with
  | [] => none
  | c :: cs1 =>
    if c = 'e' || c = 'E' then
      let p :=
        match cs1 with
        | s :: cs2 => if s = '-' || s = '+' then ([s], cs2) else (([] : List Char), cs1)
        | [] => (([] : List Char), cs1)
      let w := p.2.span Char.isDigit
      if w.1.isEmpty then none else some ((c :: p.1) ++ w.1, w.2)
    else none

/-- Zero or more further exponent groups, matched greedily.  The fuel is
always instantiated with the length of the remaining input, which
suffices because every group consumes at least two characters. -/
def expPartsF : Nat → List Char → List Char × List Char
  | 0, cs => ([], cs)
  | f + 1, cs =>
    match expPart cs with
    | none => ([], cs)
    | some (g, rest) =>
      let r := expPartsF f rest
      (g ++ r.1, r.2)

/-- After the sign and mantissa `tok` have been matched, require one
exponent group and then consume further exponent groups greedily
(the mandatory `([eE][-+]?\d+)+` tail of the second alternative). -/
def expTail (tok cs : List Char) : Option (List Char × List Char) :=
  match expPart cs with
  | none => none
  | some (g, cs2) =>
    let r := expPartsF cs2.length cs2
    some (tok ++ g ++ r.1, r.2)

/-- The second regex alternative
`[-+]?(\d+([.,]\d*)?|[.,]\d+)([eE][-+]?\d+)+` at the current position.
Backtracking collapses to this deterministic procedure: digit runs are
maximal (giving back a digit can never help, because the continuation
requires `[eE]` or `[.,]`, never a digit), so the only freedom the
engine has is whether the optional sign and the optional fraction are
taken, and both are forced by the next character. -/
def alt2 (cs : List Char) : Option (List Char × List Char) :=
  let p :=
    match cs with
    | c :: rest => if c = '-' || c = '+' then ([c], rest) else (([] : List Char), cs)
    | [] => (([] : List Char), cs)
  let sgn := p.1
  match p.2 with
  | [] => none
  | c :: rest =>
    if c.isDigit then
      let w := p.2.span Char.isDigit
      let m :=
        match w.2 with
        | d :: rest2 =>
          if d = '.' || d = ',' then
            let v := rest2.span Char.isDigit
            (d :: v.1, v.2)
          else (([] : List Char), w.2)
        | [] => (([] : List Char), w.2)
      expTail (sgn ++ w.1 ++ m.1) m.2
    else if c = '.' || c = ',' then
      let v := rest.span Char.isDigit
      if v.1.isEmpty then none
      else expTail (sgn ++ (c :: v.1)) v.2
    else none

/-- Try the whole pattern at the current position: the four alternatives
in the order they appear in the source regex. -/
def matchAt (cs : List Char) : Option (List Char × List Char) :=
  match cs with
  | [] => none
  | c :: rest =>
    if c = ' ' then
      let w := cs.span (fun ch => ch = ' ')
      some (w.1, w.2)
    else
      match alt2 cs with
      | some r => some r
      | none =>
        if isClass3 c then
          let w := cs.span isClass3
          some (w.1, w.2)
        else if c = '{' || c = '}' then some ([c], rest)
        else none

/-- Model of `re.finditer`: collect non-overlapping matches left to right,
advancing one character when no alternative matches.  The fuel is
always instantiated with the length of the input, which suffices
because every step consumes at least one character. -/
def scanF : Nat → List Char → List (List Char)
  | 0, _ => []
  | f + 1, cs =>
    match matchAt cs with
    | some (tok, rest) => tok :: scanF f rest
    | none =>
      match cs with
      | [] => []
      | _ :: t => scanF f t

/-- Embeds `tokenize` of `frads/parsers.py`: scan the string and yield every
match whose first character is not a space or a comma. -/
def tokenize (s : String) : List (List Char) :=
  (scanF s.data.length s.data).filter fun t =>
    match t with
    | c :: _ => !(c = ' ' || c = ',')
    | [] => true

/-! ## Python `float()` on the tokens the scanner can produce

Tokens contain only digits, `.`, `,`, `*`, `+`, `-`, `e`, `E`.  On such
strings Python's `float` accepts an optional sign, then digits with an
optional `.` fraction (at least one digit overall), then an optional
exponent, and rejects everything else (in particular `,`, `*`, a second
`.` or a second exponent). -/

/-- Numeric value of a digit run. -/
def digitsVal (ds : List Char) : Nat :=
  ds.foldl (fun a c => 10 * a + (c.toNat - 48)) 0

/-- Model of `float(tok)` for the token alphabet of this scanner: `some` of the
exact value, or `none` when Python would raise `ValueError`. -/
def pyFloat (cs : List Char) : Option ℚ :=
  let p :=
    match cs with
    | c :: rest =>
      if c = '-' then ((-1 : ℚ), rest)
      else if c = '+' then ((1 : ℚ), rest) else ((1 : ℚ), cs)
    | [] => ((1 : ℚ), ([] : List Char))
  let sgn := p.1
  let w := p.2.span Char.isDigit
  let m :=
    match w.2 with
    | c :: rest =>
      if c = '.' then
        let v := rest.span Char.isDigit
        some (v.1, v.2)
      else none
    | [] => none
  let fs := match m with | some v => v.1 | none => ([] : List Char)
  let cs2 := match m with | some v => v.2 | none => w.2
  if w.1.isEmpty && fs.isEmpty then none
  else
    let mant : ℚ := sgn * (digitsVal (w.1 ++ fs) : ℚ) / 10 ^ fs.length
    match cs2 with
    | [] => some mant
    | e :: rest =>
      if e = 'e' || e = 'E' then
        let q :=
          match rest with
          | s :: rest2 =>
            if s = '-' then (true, rest2)
            else if s = '+' then (false, rest2) else (false, rest)
          | [] => (false, rest)
        let v := q.2.span Char.isDigit
        if v.1.isEmpty then none
        else if !v.2.isEmpty then none
        else if q.1 then some (mant / 10 ^ digitsVal v.1)
        else some (mant * 10 ^ digitsVal v.1)
      else none

/-! ## Tree builder -/

/-- The token `{`. -/
def obrace : List Char := ['{']

/-- The token `}`. -/
def cbrace : List Char := ['}']

/-- Embeds `parse_branch` of `frads/parsers.py`: pull tokens in a loop; `{`
opens a child branch (parsed recursively, appended as one child), `}`
returns the children built so far, and any other token is appended as a
float child after `float(value)` conversion.  `next()` on an exhausted
generator raises `StopIteration`.  Returns the children together with
the tokens left over after the matching `}`.  The fuel is always
instantiated with the number of tokens, which suffices because every
step consumes at least one token; the fuel-exhaustion branch is
unreachable then (`parseBranchF_fuel` below). -/
def parseBranchF : Nat → List (List Char) → Except PyErr (List PyVal × List (List Char))
  | _, [] => .error .stopIteration
  | 0, _ :: _ => .error .stopIteration
  | f + 1, t :: rest =>
    if t = obrace then
      match parseBranchF f rest with
      | .error e => .error e
      | .ok (child, rest2) =>
        match parseBranchF f rest2 with
        | .error e => .error e
        | .ok (sibs, rest3) => .ok (.list child :: sibs, rest3)
    else if t = cbrace then .ok ([], rest)
    else
      match pyFloat t with
      | none => .error .valueErrorFloat
      | some q =>
        match parseBranchF f rest with
        | .error e => .error e
        | .ok (sibs, rest2) => .ok (.num q :: sibs, rest2)

/-- Embeds `parse_ttree` of `frads/parsers.py`: tokenize, require the first
token to be `{` (otherwise `ValueError`), and parse the branches.
An empty token stream makes the initial `next()` raise
`StopIteration`. -/
def parse_ttree (s : String) : Except PyErr (List PyVal) :=
  match tokenize s with
  | [] => .error .stopIteration
  | t :: rest =>
    if t = obrace then
      match parseBranchF rest.length rest with
      | .error e => .error e
      | .ok (children, _) => .ok children
    else .error .valueErrorBrace

/-! ## Depth calculator

`get_nested_list_levels(x)` returns `False` (numerically `0`) for a
non-list and `max(map(get_nested_list_levels, x)) + 1` for a list;
`max` of an empty sequence raises `ValueError`.  The cons case below
folds that `max` pairwise, which evaluates the children in the same
left-to-right order and produces the same value and the same first
error. -/
def get_nested_list_levels : PyVal → Except PyErr Nat
  | .num _ => .ok 0
  | .list [] => .error .valueErrorMax
  | .list [x] =>
    match get_nested_list_levels x with
    | .error e => .error e
    | .ok a => .ok (a + 1)
  | .list (x :: y :: rest) =>
    match get_nested_list_levels x with
    | .error e => .error e
    | .ok a =>
      match get_nested_list_levels (.list (y :: rest)) with
      | .error e => .error e
      | .ok b => .ok (max (a + 1) b)

/-- The `TensorTree` object of `frads/parsers.py`: the parsed nested
list and the depth cached by `__init__`. -/
structure TensorTree where
  parsed : List PyVal
  depth : Nat

/-- Embeds `TensorTree.__init__`: store the parsed list and cache
`get_nested_list_levels(parsed)`. -/
def TensorTree.make (parsed : List PyVal) : Except PyErr TensorTree :=
  match get_nested_list_levels (.list parsed) with
  | .error e => .error e
  | .ok d => .ok ⟨parsed, d⟩

/-! ## Quadrant index tables -/

/-- Embeds `TensorTree.get_leaf_index`: `range(0,4)`, `range(4,8)`,
`range(8,12)`, `range(12,16)` by the signs of `xp`, `yp`. -/
def get_leaf_index (xp yp : ℚ) : List Nat :=
  if xp < 0 then
    if yp < 0 then [0, 1, 2, 3] else [4, 5, 6, 7]
  else
    if yp < 0 then [8, 9, 10, 11] else [12, 13, 14, 15]

/-- Embeds `TensorTree.get_branch_index`: `range(0,16,4)`, `range(2,16,4)`,
`range(1,16,4)`, `range(3,16,4)` by the signs of `xp`, `yp`. -/
def get_branch_index (xp yp : ℚ) : List Nat :=
  if xp < 0 then
    if yp < 0 then [0, 4, 8, 12] else [2, 6, 10, 14]
  else
    if yp < 0 then [1, 5, 9, 13] else [3, 7, 11, 15]

/-- Embeds `LoadTre.get_lorder3` of `sundry/parsettree.py`: `range(0,4)` when
`abs(x) <= .5`, else `range(4,8)`. -/
def get_lorder3 (x : ℚ) : List Nat :=
  if |x| ≤ 1 / 2 then [0, 1, 2, 3] else [4, 5, 6, 7]

/-- Embeds `LoadTre.get_border3` of `sundry/parsettree.py`: `range(0,8,2)` when
`abs(x) <= .5`, else `range(1,8,2)`. -/
def get_border3 (x : ℚ) : List Nat :=
  if |x| ≤ 1 / 2 then [0, 2, 4, 6] else [1, 3, 5, 7]

/-! ## Traversal engine -/

/-- The list comprehension `[quad[i] for i in ochild]`: index the list
at each position, raising `IndexError` at the first out-of-range
index. -/
def extract (l : List PyVal) : List Nat → Except PyErr (List PyVal)
  | [] => .ok []
  | i :: is =>
    match l.get? i with
    | none => .error .indexError
    | some v =>
      match extract l is with
      | .error e => .error e
      | .ok vs => .ok (v :: vs)

/-- Recentering `_x = xp + 1 / 2**n if xp < 0 else xp - 1 / 2**n`. -/
def recenter (x : ℚ) (n : Nat) : ℚ :=
  if x < 0 then x + 1 / 2 ^ n else x - 1 / 2 ^ n

/-- Table choice of `traverse` after the level counter was incremented:
branch table while `n < self.depth`, leaf table otherwise. -/
def child_table (T : TensorTree) (x y : ℚ) (n1 : Nat) : List Nat :=
  if n1 < T.depth then get_branch_index x y else get_leaf_index x y

/-- The `for sq in sub_quad` loop of `traverse`, parameterized by the
recursive call `rec`: a float hits `len(sq)` and raises `TypeError`; a
list of more than 4 entries is another branch and is traversed
recursively; any other list is appended as a leaf.  Results are
appended in order and the first exception aborts the loop. -/
def descend (rec : PyVal → Except PyErr PyVal) : List PyVal → Except PyErr (List PyVal)
  | [] => .ok []
  | sq :: rest =>
    match sq with
    | .num _ => .error .typeError
    | .list m =>
      match (if m.length > 4 then rec (.list m) else .ok (.list m)) with
      | .error e => .error e
      | .ok v =>
        match descend rec rest with
        | .error e => .error e
        | .ok vs => .ok (v :: vs)

/-- Embeds `TensorTree.traverse` with explicit recursion fuel (the source
recursion always terminates because every recursive call descends into
a member of the current list; the wrapper `TensorTree.traverse`
instantiates the fuel with `pySize quad`, which bounds the recursion
depth, so the fuel-exhaustion branch is unreachable).  A float `quad`
hits `len(quad)` and raises `TypeError`.  A single-entry list is
returned as is.  Otherwise the query is recentered, the level counter
incremented, the child slots selected by the branch or leaf table are
extracted (raising `IndexError` when absent), and either all slots are
floats (returned as one flat leaf group) or the slots are walked by
`descend`. -/
def traverseF (T : TensorTree) : Nat → PyVal → ℚ → ℚ → Nat → Except PyErr PyVal
  | 0, _, _, _, _ => .error .recursionError
  | f + 1, quad, xp, yp, n =>
    match quad with
    | .num _ => .error .typeError
    | .list l =>
      if l.length = 1 then .ok (.list l)
      else
        let x1 := recenter xp n
        let y1 := recenter yp n
        let ochild := child_table T x1 y1 (n + 1)
        match extract l ochild with
        | .error e => .error e
        | .ok sub =>
          if sub.all PyVal.isNum then .ok (.list sub)
          else
            match descend (fun q => traverseF T f q x1 y1 (n + 1)) sub with
            | .error e => .error e
            | .ok res => .ok (.list res)

/-- Structural size of a `PyVal`; it bounds the traversal recursion
depth and serves as fuel for `traverseF`. -/
def pySize : PyVal → Nat
  | .num _ => 1
  | .list [] => 1
  | .list (x :: xs) => 1 + pySize x + pySize (.list xs)

/-- Embeds `TensorTree.traverse` of `frads/parsers.py` (default level `n = 1`
as in the source). -/
def TensorTree.traverse (T : TensorTree) (quad : PyVal) (xp yp : ℚ) (n : Nat := 1) :
    Except PyErr PyVal :=
  traverseF T (pySize quad) quad xp yp n

/-- Embeds `TensorTree.lookup`: select the top-level quadrant groups with the
branch table on the raw query, extract them from the parsed list
(raising `IndexError` when absent), and traverse each. -/
def TensorTree.lookup (T : TensorTree) (xp yp : ℚ) : Except PyErr (List PyVal) :=
  match extract T.parsed (get_branch_index xp yp) with
  | .error e => .error e
  | .ok quads => quads.mapM fun q => T.traverse q xp yp

/-- The end-to-end pipeline `TensorTree(parse_ttree(text)).lookup(x, y)`. -/
def load_lookup (s : String) (x y : ℚ) : Except PyErr (List PyVal) :=
  match parse_ttree s with
  | .error e => .error e
  | .ok parsed =>
    match TensorTree.make parsed with
    | .error e => .error e
    | .ok T => T.lookup x y

/-! ## State-threaded lookup

`lookup` and `traverse` are instance methods: to settle the claim that
they mutate nothing, the same method bodies are embedded once more with
the object state (`self`, a `TensorTree`) threaded explicitly through
every call, so that "the method writes no field" becomes the provable
statement "the state returned by every call equals the state passed
in". -/

/-- State-threaded form of the `for sq in sub_quad` loop. -/
def descendS (rec : PyVal → TensorTree → Except PyErr PyVal × TensorTree) :
    List PyVal → TensorTree → Except PyErr (List PyVal) × TensorTree
  | [], st => (.ok [], st)
  | sq :: rest, st =>
    match sq with
    | .num _ => (.error .typeError, st)
    | .list m =>
      match (if m.length > 4 then rec (.list m) st else (.ok (.list m), st)) with
      | (.error e, st1) => (.error e, st1)
      | (.ok v, st1) =>
        match descendS rec rest st1 with
        | (.error e, st2) => (.error e, st2)
        | (.ok vs, st2) => (.ok (v :: vs), st2)

/-- State-threaded form of `TensorTree.traverse`: each step reads
`self.depth` from the current state and returns the state it finished
with. -/
def traverseS : Nat → PyVal → ℚ → ℚ → Nat → TensorTree → Except PyErr PyVal × TensorTree
  | 0, _, _, _, _, st => (.error .recursionError, st)
  | f + 1, quad, xp, yp, n, st =>
    match quad with
    | .num _ => (.error .typeError, st)
    | .list l =>
      if l.length = 1 then (.ok (.list l), st)
      else
        let x1 := recenter xp n
        let y1 := recenter yp n
        let ochild := child_table st x1 y1 (n + 1)
        match extract l ochild with
        | .error e => (.error e, st)
        | .ok sub =>
          if sub.all PyVal.isNum then (.ok (.list sub), st)
          else
            match descendS (fun q st2 => traverseS f q x1 y1 (n + 1) st2) sub st with
            | (.error e, st1) => (.error e, st1)
            | (.ok res, st1) => (.ok (.list res), st1)

/-- State-threaded form of the comprehension
`[self.traverse(quad, xp, yp) for quad in quads]` of `lookup`. -/
def lookupQuadsS (xp yp : ℚ) : List PyVal → TensorTree → Except PyErr (List PyVal) × TensorTree
  | [], st => (.ok [], st)
  | q :: rest, st =>
    match traverseS (pySize q) q xp yp 1 st with
    | (.error e, st1) => (.error e, st1)
    | (.ok v, st1) =>
      match lookupQuadsS xp yp rest st1 with
      | (.error e, st2) => (.error e, st2)
      | (.ok vs, st2) => (.ok (v :: vs), st2)

/-- State-threaded form of `TensorTree.lookup`: reads `self.parsed`
from the current state, then traverses each selected quadrant,
threading the state. -/
def lookupS (st : TensorTree) (xp yp : ℚ) : Except PyErr (List PyVal) × TensorTree :=
  match extract st.parsed (get_branch_index xp yp) with
  | .error e => (.error e, st)
  | .ok quads => lookupQuadsS xp yp quads st

/-! ## Concrete scenario data -/

/-- The document text of the end-to-end scenario. -/
def c1text : String :=
  "\x7b \x7b1 2 3 4\x7d\x7b5 6 7 8\x7d\x7b9 10 11 12\x7d\x7b13 14 15 16\x7d \x7d"

/-- The nested list `parse_ttree` produces for `c1text`. -/
def c1parsed : List PyVal :=
  [.list [.num 1, .num 2, .num 3, .num 4],
   .list [.num 5, .num 6, .num 7, .num 8],
   .list [.num 9, .num 10, .num 11, .num 12],
   .list [.num 13, .num 14, .num 15, .num 16]]

/-- A 5-entry branch whose own traversal hits a missing child slot. -/
def mixL : PyVal := .list [.num 101, .num 102, .num 103, .num 104, .num 105]

/-- A 16-slot node whose selected slots for the query `(-1/2, -1/2)` mix
the list `mixL` (slot 3) with bare numbers (slots 7, 11, 15). -/
def quadMix : PyVal :=
  .list [.num 0, .num 1, .num 2, mixL, .num 4, .num 5, .num 6, .num 7,
         .num 8, .num 9, .num 10, .num 11, .num 12, .num 13, .num 14, .num 15]

/-- A 16-slot node whose selected slots for the query `(-1/2, -1/2)` put a
bare number (slot 3) before a list (slot 7). -/
def quadT : PyVal :=
  .list [.num 0, .num 1, .num 2, .num 3, .num 4, .num 5, .num 6,
         .list [.num 70, .num 71],
         .num 8, .num 9, .num 10, .num 11, .num 12, .num 13, .num 14, .num 15]

/-- A parsed list of depth 4. -/
def d4parsed : List PyVal := [.list [.list [.list [.num 1]]]]

/-- A tensor tree of depth 4 (see `t4_make`). -/
def T4 : TensorTree := ⟨d4parsed, 4⟩

/-- Whether a call returned normally rather than raising. -/
def returnedOk {α : Type} : Except PyErr α → Bool
  | .ok _ => true
  | .error _ => false

/-- Malformed document text with a missing closing brace. -/
def c6text : String := "\x7b1 2 3"

/-- Document text whose first token is a number, not `\x7b`. -/
def c7text : String := "1 2 3"

/-- Document text with two consecutive numbers inside one brace pair. -/
def c3text : String := "\x7b1 2\x7d"

/-- A signed decimal literal without exponent. -/
def c4minus : String := "-0.5"

/-- The same literal with an exponent attached. -/
def c4exp : String := "-0.5e0"

/-- The same literal with a plus sign. -/
def c4plus : String := "+0.5"

/-- A whitespace and comma run with no number. -/
def c4seps : String := " , "

/-- Ten float children, for the structural-mismatch scenario. -/
def vs10 : List PyVal :=
  [.num 0, .num 1, .num 2, .num 3, .num 4, .num 5, .num 6, .num 7, .num 8, .num 9]

/-- Thirteen children, each a single-entry leaf list: fewer than the 16
slots the branch table spans, yet every index the query `(-1, -1)`
demands (0, 4, 8, 12) is present. -/
def vs13 : List PyVal :=
  [.list [.num 0], .list [.num 1], .list [.num 2], .list [.num 3],
   .list [.num 4], .list [.num 5], .list [.num 6], .list [.num 7],
   .list [.num 8], .list [.num 9], .list [.num 10], .list [.num 11],
   .list [.num 12]]

/-! ## Helper lemmas -/

theorem extract_mem {l : List PyVal} :
    ∀ {is : List Nat} {vs : List PyVal}, extract l is = .ok vs → ∀ v ∈ vs, v ∈ l := by
  intro is
  induction is with
  | nil =>
    intro vs h v hv
    simp only [extract] at h
    cases h
    simp at hv
  | cons i is ih =>
    intro vs h v hv
    simp only [extract] at h
    cases hg : l.get? i with
    | none => rw [hg] at h; cases h
    | some w =>
      rw [hg] at h
      cases hrec : extract l is with
      | error e => rw [hrec] at h; cases h
      | ok ws =>
        rw [hrec] at h
        cases h
        rcases List.mem_cons.1 hv with h1 | h2
        · subst h1; exact List.get?_mem hg
        · exact ih hrec v h2

theorem extract_length {l : List PyVal} :
    ∀ {is : List Nat} {vs : List PyVal}, extract l is = .ok vs → vs.length = is.length := by
  intro is
  induction is with
  | nil => intro vs h; simp only [extract] at h; cases h; rfl
  | cons i is ih =>
    intro vs h
    simp only [extract] at h
    cases hg : l.get? i with
    | none => rw [hg] at h; cases h
    | some w =>
      rw [hg] at h
      cases hrec : extract l is with
      | error e => rw [hrec] at h; cases h
      | ok ws =>
        rw [hrec] at h
        cases h
        simp [ih hrec]

theorem extract_error_of_oob {l : List PyVal} :
    ∀ {is : List Nat}, (∃ i ∈ is, l.length ≤ i) → extract l is = .error .indexError := by
  intro is
  induction is with
  | nil => rintro ⟨i, hi, -⟩; simp at hi
  | cons j is ih =>
    rintro ⟨i, hi, hlen⟩
    rcases List.mem_cons.1 hi with h1 | h2
    · subst h1
      simp only [extract]
      rw [List.get?_eq_none.2 hlen]
    · simp only [extract]
      cases hg : l.get? j with
      | none => rfl
      | some w => rw [ih ⟨i, h2, hlen⟩]

theorem descend_error_of_num {rec : PyVal → Except PyErr PyVal} :
    ∀ {sub : List PyVal}, (∃ v ∈ sub, v.isNum = true) → ∃ e, descend rec sub = .error e := by
  intro sub
  induction sub with
  | nil => rintro ⟨v, hv, -⟩; simp at hv
  | cons sq rest ih =>
    rintro ⟨v, hv, hnum⟩
    cases sq with
    | num q => exact ⟨.typeError, rfl⟩
    | list m =>
      have hv2 : v ∈ rest := by
        rcases List.mem_cons.1 hv with h1 | h2
        · subst h1; simp [PyVal.isNum] at hnum
        · exact h2
      rcases ih ⟨v, hv2, hnum⟩ with ⟨e, he⟩
      simp only [descend]
      cases hr : (if m.length > 4 then rec (.list m) else .ok (.list m)) with
      | error e2 => exact ⟨e2, rfl⟩
      | ok w => rw [he]; exact ⟨e, rfl⟩

theorem descendS_state {rec : PyVal → TensorTree → Except PyErr PyVal × TensorTree}
    (hrec : ∀ q st, (rec q st).2 = st) :
    ∀ (sub : List PyVal) (st : TensorTree), (descendS rec sub st).2 = st := by
  intro sub
  induction sub with
  | nil => intro st; rfl
  | cons sq rest ih =>
    intro st
    cases sq with
    | num q => rfl
    | list m =>
      have hfst : ∀ (r : Except PyErr PyVal) (st1 : TensorTree),
          (if m.length > 4 then rec (.list m) st else (.ok (.list m), st)) = (r, st1) →
          st1 = st := by
        intro r st1 h
        by_cases hlen : m.length > 4
        · rw [if_pos hlen] at h
          have := hrec (.list m) st
          rw [h] at this
          exact this
        · rw [if_neg hlen] at h
          cases h
          rfl
      simp only [descendS]
      rcases h1 : (if m.length > 4 then rec (.list m) st else (.ok (.list m), st)) with ⟨r, st1⟩
      have e1 : st1 = st := hfst r st1 h1
      cases r with
      | error e => exact e1
      | ok v =>
        rw [e1]
        rcases h2 : descendS rec rest st with ⟨r2, st2⟩
        have e2 : st2 = st := by
          have := ih st
          rw [h2] at this
          exact this
        simp only [h2]
        cases r2 with
        | error e => exact e2
        | ok vs => exact e2

theorem traverseS_state :
    ∀ (f : Nat) (quad : PyVal) (xp yp : ℚ) (n : Nat) (st : TensorTree),
      (traverseS f quad xp yp n st).2 = st := by
  intro f
  induction f with
  | zero => intro quad xp yp n st; rfl
  | succ f ih =>
    intro quad xp yp n st
    cases quad with
    | num q => rfl
    | list l =>
      simp only [traverseS]
      by_cases hlen : l.length = 1
      · rw [if_pos hlen]
      · rw [if_neg hlen]
        rcases hext : extract l (child_table st (recenter xp n) (recenter yp n) (n + 1))
          with e | sub
        · simp only [hext]
        · simp only [hext]
          by_cases hall : sub.all PyVal.isNum
          · rw [if_pos hall]
          · rw [if_neg hall]
            rcases h2 : descendS
                (fun q st2 => traverseS f q (recenter xp n) (recenter yp n) (n + 1) st2)
                sub st with ⟨r, st1⟩
            have e1 : st1 = st := by
              have := descendS_state
                (fun q st2 => ih q (recenter xp n) (recenter yp n) (n + 1) st2) sub st
              rw [h2] at this
              exact this
            cases r with
            | error e => exact e1
            | ok res => exact e1

theorem lookupQuadsS_state (xp yp : ℚ) :
    ∀ (quads : List PyVal) (st : TensorTree), (lookupQuadsS xp yp quads st).2 = st := by
  intro quads
  induction quads with
  | nil => intro st; rfl
  | cons q rest ih =>
    intro st
    simp only [lookupQuadsS]
    rcases h1 : traverseS (pySize q) q xp yp 1 st with ⟨r, st1⟩
    have e1 : st1 = st := by
      have := traverseS_state (pySize q) q xp yp 1 st
      rw [h1] at this
      exact this
    cases r with
    | error e => exact e1
    | ok v =>
      rw [e1]
      rcases h2 : lookupQuadsS xp yp rest st with ⟨r2, st2⟩
      have e2 : st2 = st := by
        have := ih st
        rw [h2] at this
        exact this
      simp only [h2]
      cases r2 with
      | error e => exact e2
      | ok vs => exact e2

theorem lookupS_state (st : TensorTree) (xp yp : ℚ) : (lookupS st xp yp).2 = st := by
  simp only [lookupS]
  rcases hext : extract st.parsed (get_branch_index xp yp) with e | quads
  · simp only [hext]
  · simp only [hext]
    exact lookupQuadsS_state xp yp quads st

theorem pyFloat_all_digits (c : Char) (rest : List Char)
    (h2 : ∀ x ∈ c :: rest, x.isDigit) :
    pyFloat (c :: rest) = some ((digitsVal (c :: rest) : ℕ) : ℚ) := by
  have hc : c.isDigit := h2 c (by simp)
  have hcm : ¬(c = '-') := by intro h; subst h; exact absurd hc (by decide)
  have hcp : ¬(c = '+') := by intro h; subst h; exact absurd hc (by decide)
  have hspan : (c :: rest).span Char.isDigit = (c :: rest, []) := by
    rw [List.span_eq_take_drop, List.takeWhile_eq_self_iff.2 h2, List.dropWhile_eq_nil_iff.2 h2]
  simp only [pyFloat, if_neg hcm, if_neg hcp]
  rw [hspan]
  simp

theorem pyFloat_digits (c : Char) (rest : List Char) (n : ℕ)
    (h2 : ∀ x ∈ c :: rest, x.isDigit) (h3 : digitsVal (c :: rest) = n) :
    pyFloat (c :: rest) = some (n : ℚ) := by
  rw [pyFloat_all_digits c rest h2, h3]

theorem parseBranchF_ok_length :
    ∀ (f : Nat) (ts : List (List Char)) (c : List PyVal) (r : List (List Char)),
      parseBranchF f ts = .ok (c, r) → r.length < ts.length := by
  intro f
  induction f with
  | zero =>
    intro ts c r h
    cases ts with
    | nil => cases h
    | cons t rest => cases h
  | succ f ih =>
    intro ts c r h
    cases ts with
    | nil => cases h
    | cons t rest =>
      simp only [parseBranchF] at h
      by_cases h1 : t = obrace
      · rw [if_pos h1] at h
        cases hr1 : parseBranchF f rest with
        | error e => simp only [hr1] at h; cases h
        | ok p =>
          rcases p with ⟨child, rest2⟩
          simp only [hr1] at h
          cases hr2 : parseBranchF f rest2 with
          | error e => simp only [hr2] at h; cases h
          | ok p2 =>
            rcases p2 with ⟨sibs, rest3⟩
            simp only [hr2] at h
            cases h
            have l1 := ih rest child rest2 hr1
            have l2 := ih rest2 sibs r hr2
            simp only [List.length_cons]
            omega
      · rw [if_neg h1] at h
        by_cases h2 : t = cbrace
        · rw [if_pos h2] at h
          cases h
          simp
        · rw [if_neg h2] at h
          cases hp : pyFloat t with
          | none => simp only [hp] at h; cases h
          | some q =>
            simp only [hp] at h
            cases hr1 : parseBranchF f rest with
            | error e => simp only [hr1] at h; cases h
            | ok p =>
              rcases p with ⟨sibs, rest2⟩
              simp only [hr1] at h
              cases h
              have l1 := ih rest sibs r hr1
              simp only [List.length_cons]
              omega

theorem parseBranchF_fuel :
    ∀ (f g : Nat) (ts : List (List Char)), ts.length ≤ f → ts.length ≤ g →
      parseBranchF f ts = parseBranchF g ts := by
  intro f
  induction f using Nat.strong_induction_on with
  | _ f ihf =>
    intro g ts hf hg
    cases ts with
    | nil =>
      cases f <;> cases g <;> rfl
    | cons t rest =>
      rcases f with - | f1
      · simp at hf
      rcases g with - | g1
      · simp at hg
      simp only [List.length_cons] at hf hg
      have hr : parseBranchF f1 rest = parseBranchF g1 rest :=
        ihf f1 (by omega) g1 rest (by omega) (by omega)
      simp only [parseBranchF]
      by_cases h1 : t = obrace
      · simp only [if_pos h1, hr]
        cases hc : parseBranchF g1 rest with
        | error e => rfl
        | ok p =>
          rcases p with ⟨child, rest2⟩
          have hlen2 : rest2.length < rest.length := parseBranchF_ok_length g1 rest child rest2 hc
          simp only [hc]
          rw [ihf f1 (by omega) g1 rest2 (by omega) (by omega)]
      · simp only [if_neg h1]
        by_cases h2 : t = cbrace
        · simp only [if_pos h2]
        · simp only [if_neg h2]
          cases hp : pyFloat t with
          | none => rfl
          | some q => simp only [hr]

theorem parseBranchF_unclosed :
    ∀ (f : Nat) (ts : List (List Char)),
      (∀ t ∈ ts, t ≠ cbrace ∧ (t = obrace ∨ (pyFloat t).isSome)) →
      parseBranchF f ts = .error .stopIteration := by
  intro f
  induction f with
  | zero =>
    intro ts h
    cases ts with
    | nil => rfl
    | cons t rest => rfl
  | succ f ih =>
    intro ts h
    cases ts with
    | nil => rfl
    | cons t rest =>
      have ht := h t (by simp)
      have hrest : ∀ x ∈ rest, x ≠ cbrace ∧ (x = obrace ∨ (pyFloat x).isSome) :=
        fun x hx => h x (by simp [hx])
      simp only [parseBranchF]
      by_cases h1 : t = obrace
      · simp only [if_pos h1, ih rest hrest]
      · simp only [if_neg h1, if_neg ht.1]
        rcases ht.2 with h2 | h2
        · exact absurd h2 h1
        · rcases Option.isSome_iff_exists.1 h2 with ⟨q, hq⟩
          simp only [hq, ih rest hrest]

theorem parseBranchF_num_run :
    ∀ (ts : List (List Char)) (f : Nat) (rest : List (List Char)),
      (∀ t ∈ ts, t ≠ obrace ∧ t ≠ cbrace ∧ (pyFloat t).isSome) →
      ts.length < f →
      parseBranchF f (ts ++ cbrace :: rest) =
        .ok (ts.map (fun t => PyVal.num ((pyFloat t).getD 0)), rest) := by
  intro ts
  induction ts with
  | nil =>
    intro f rest h hf
    rcases f with - | f1
    · simp at hf
    simp only [List.nil_append, List.map_nil, parseBranchF]
    simp [obrace, cbrace]
  | cons t ts ih =>
    intro f rest h hf
    rcases f with - | f1
    · simp at hf
    have ht := h t (by simp)
    have hts : ∀ x ∈ ts, x ≠ obrace ∧ x ≠ cbrace ∧ (pyFloat x).isSome :=
      fun x hx => h x (by simp [hx])
    rcases Option.isSome_iff_exists.1 ht.2.2 with ⟨q, hq⟩
    simp only [List.cons_append, parseBranchF, if_neg ht.1, if_neg ht.2.1, hq]
    simp only [List.append_eq]
    rw [ih f1 rest hts (by simpa using hf)]
    simp [hq]

theorem descend_congr {r1 r2 : PyVal → Except PyErr PyVal} :
    ∀ {sub : List PyVal}, (∀ v ∈ sub, r1 v = r2 v) → descend r1 sub = descend r2 sub := by
  intro sub
  induction sub with
  | nil => intro h; rfl
  | cons sq rest ih =>
    intro h
    cases sq with
    | num q => rfl
    | list m =>
      simp only [descend]
      rw [ih fun v hv => h v (by simp [hv])]
      by_cases hlen : m.length > 4
      · rw [if_pos hlen, if_pos hlen, h (.list m) (by simp)]
      · rw [if_neg hlen, if_neg hlen]

theorem pySize_pos : ∀ (v : PyVal), 0 < pySize v := by
  intro v
  cases v with
  | num q => simp [pySize]
  | list xs =>
    cases xs with
    | nil => simp [pySize]
    | cons x rest => simp [pySize]

theorem pySize_mem_lt : ∀ {l : List PyVal} {v : PyVal}, v ∈ l → pySize v < pySize (.list l) := by
  intro l
  induction l with
  | nil => intro v hv; simp at hv
  | cons x rest ih =>
    intro v hv
    rcases List.mem_cons.1 hv with h1 | h2
    · subst h1
      have := pySize_pos (PyVal.list rest)
      simp only [pySize]
      omega
    · have := ih h2
      have hx := pySize_pos x
      simp only [pySize] at this ⊢
      omega

theorem traverseF_fuel :
    ∀ (f : Nat) (T : TensorTree) (quad : PyVal) (xp yp : ℚ) (n : Nat) (g : Nat),
      pySize quad ≤ f → pySize quad ≤ g →
      traverseF T f quad xp yp n = traverseF T g quad xp yp n := by
  intro f
  induction f using Nat.strong_induction_on with
  | _ f ihf =>
    intro T quad xp yp n g hf hg
    have hq := pySize_pos quad
    rcases f with - | f1
    · omega
    rcases g with - | g1
    · omega
    cases quad with
    | num q => rfl
    | list l =>
      simp only [traverseF]
      by_cases hlen : l.length = 1
      · rw [if_pos hlen, if_pos hlen]
      · rw [if_neg hlen, if_neg hlen]
        split
        next e heq => rfl
        next sub heq =>
          by_cases hall : sub.all PyVal.isNum
          · rw [if_pos hall, if_pos hall]
          · rw [if_neg hall, if_neg hall]
            rw [descend_congr fun v hv => ?_]
            have hvl : v ∈ l := extract_mem heq v hv
            have hsz : pySize v < pySize (.list l) := pySize_mem_lt hvl
            exact ihf f1 (by omega) T v (recenter xp n) (recenter yp n) (n + 1) g1
              (by omega) (by omega)

theorem traverse_eq_traverseF (T : TensorTree) (quad : PyVal) (xp yp : ℚ) (n f : Nat)
    (hf : pySize quad ≤ f) :
    T.traverse quad xp yp n = traverseF T f quad xp yp n :=
  traverseF_fuel (pySize quad) T quad xp yp n f (le_refl _) hf

theorem traverse_single (T : TensorTree) (x : PyVal) (xp yp : ℚ) (n : Nat) :
    T.traverse (.list [x]) xp yp n = .ok (.list [x]) := by
  have hsz : pySize (.list [x]) ≤ pySize x + 1 + 1 := by
    simp only [pySize]
    omega
  rw [traverse_eq_traverseF T (.list [x]) xp yp n (pySize x + 1 + 1) hsz]
  simp [traverseF]

theorem parseBranchF_close (f : Nat) (rest : List (List Char)) :
    parseBranchF (f + 1) (cbrace :: rest) = .ok ([], rest) := rfl

theorem parseBranchF_chunk (nums : List (List Char)) (f : Nat) (rest2 : List (List Char))
    (h : ∀ t ∈ nums, t ≠ obrace ∧ t ≠ cbrace ∧ (pyFloat t).isSome) (hf : nums.length < f) :
    parseBranchF (f + 1) (obrace :: (nums ++ cbrace :: rest2)) =
      match parseBranchF f rest2 with
      | .error e => .error e
      | .ok (sibs, r) =>
        .ok (.list (nums.map (fun t => PyVal.num ((pyFloat t).getD 0))) :: sibs, r) := by
  simp only [parseBranchF]
  rw [parseBranchF_num_run nums f rest2 h hf]
  rfl

theorem c1_parse : parse_ttree c1text = .ok c1parsed := by
  have htok : tokenize c1text =
      [obrace,
       obrace, ['1'], ['2'], ['3'], ['4'], cbrace,
       obrace, ['5'], ['6'], ['7'], ['8'], cbrace,
       obrace, ['9'], ['1', '0'], ['1', '1'], ['1', '2'], cbrace,
       obrace, ['1', '3'], ['1', '4'], ['1', '5'], ['1', '6'], cbrace,
       cbrace] := by decide
  have v1 : pyFloat ['1'] = some ((1 : ℕ) : ℚ) := pyFloat_digits '1' [] 1 (by decide) rfl
  have v2 : pyFloat ['2'] = some ((2 : ℕ) : ℚ) := pyFloat_digits '2' [] 2 (by decide) rfl
  have v3 : pyFloat ['3'] = some ((3 : ℕ) : ℚ) := pyFloat_digits '3' [] 3 (by decide) rfl
  have v4 : pyFloat ['4'] = some ((4 : ℕ) : ℚ) := pyFloat_digits '4' [] 4 (by decide) rfl
  have v5 : pyFloat ['5'] = some ((5 : ℕ) : ℚ) := pyFloat_digits '5' [] 5 (by decide) rfl
  have v6 : pyFloat ['6'] = some ((6 : ℕ) : ℚ) := pyFloat_digits '6' [] 6 (by decide) rfl
  have v7 : pyFloat ['7'] = some ((7 : ℕ) : ℚ) := pyFloat_digits '7' [] 7 (by decide) rfl
  have v8 : pyFloat ['8'] = some ((8 : ℕ) : ℚ) := pyFloat_digits '8' [] 8 (by decide) rfl
  have v9 : pyFloat ['9'] = some ((9 : ℕ) : ℚ) := pyFloat_digits '9' [] 9 (by decide) rfl
  have v10 : pyFloat ['1', '0'] = some ((10 : ℕ) : ℚ) :=
    pyFloat_digits '1' ['0'] 10 (by decide) rfl
  have v11 : pyFloat ['1', '1'] = some ((11 : ℕ) : ℚ) :=
    pyFloat_digits '1' ['1'] 11 (by decide) rfl
  have v12 : pyFloat ['1', '2'] = some ((12 : ℕ) : ℚ) :=
    pyFloat_digits '1' ['2'] 12 (by decide) rfl
  have v13 : pyFloat ['1', '3'] = some ((13 : ℕ) : ℚ) :=
    pyFloat_digits '1' ['3'] 13 (by decide) rfl
  have v14 : pyFloat ['1', '4'] = some ((14 : ℕ) : ℚ) :=
    pyFloat_digits '1' ['4'] 14 (by decide) rfl
  have v15 : pyFloat ['1', '5'] = some ((15 : ℕ) : ℚ) :=
    pyFloat_digits '1' ['5'] 15 (by decide) rfl
  have v16 : pyFloat ['1', '6'] = some ((16 : ℕ) : ℚ) :=
    pyFloat_digits '1' ['6'] 16 (by decide) rfl
  simp only [parse_ttree, htok, if_true]
  rw [show ([obrace, ['1'], ['2'], ['3'], ['4'], cbrace,
       obrace, ['5'], ['6'], ['7'], ['8'], cbrace,
       obrace, ['9'], ['1', '0'], ['1', '1'], ['1', '2'], cbrace,
       obrace, ['1', '3'], ['1', '4'], ['1', '5'], ['1', '6'], cbrace,
       cbrace] : List (List Char)).length = 24 + 1 from rfl]
  rw [show ([obrace, ['1'], ['2'], ['3'], ['4'], cbrace,
       obrace, ['5'], ['6'], ['7'], ['8'], cbrace,
       obrace, ['9'], ['1', '0'], ['1', '1'], ['1', '2'], cbrace,
       obrace, ['1', '3'], ['1', '4'], ['1', '5'], ['1', '6'], cbrace,
       cbrace] : List (List Char)) =
      obrace :: ([['1'], ['2'], ['3'], ['4']] ++ cbrace ::
       (obrace :: ([['5'], ['6'], ['7'], ['8']] ++ cbrace ::
        (obrace :: ([['9'], ['1', '0'], ['1', '1'], ['1', '2']] ++ cbrace ::
         (obrace :: ([['1', '3'], ['1', '4'], ['1', '5'], ['1', '6']] ++ cbrace ::
          [cbrace]))))))) from rfl]
  rw [parseBranchF_chunk _ 24 _ (by decide) (by decide)]
  rw [show (24 : Nat) = 23 + 1 from rfl]
  rw [parseBranchF_chunk _ 23 _ (by decide) (by decide)]
  rw [show (23 : Nat) = 22 + 1 from rfl]
  rw [parseBranchF_chunk _ 22 _ (by decide) (by decide)]
  rw [show (22 : Nat) = 21 + 1 from rfl]
  rw [parseBranchF_chunk _ 21 _ (by decide) (by decide)]
  rw [show (21 : Nat) = 20 + 1 from rfl]
  rw [parseBranchF_close 20 []]
  simp only [List.map_cons, List.map_nil, v1, v2, v3, v4, v5, v6, v7, v8, v9, v10, v11,
    v12, v13, v14, v15, v16, Option.getD_some]
  norm_num [c1parsed]

theorem c1_levels : get_nested_list_levels (.list c1parsed) = .ok 2 := by
  norm_num [get_nested_list_levels, c1parsed]

theorem c1_make : TensorTree.make c1parsed = .ok ⟨c1parsed, 2⟩ := by
  simp only [TensorTree.make, c1_levels]

theorem c1_gbi : get_branch_index (-1/2 : ℚ) (-1/2) = [0, 4, 8, 12] := by
  norm_num [get_branch_index]

theorem c1_lookup : TensorTree.lookup ⟨c1parsed, 2⟩ (-1/2) (-1/2) = .error .indexError := by
  simp only [TensorTree.lookup, c1_gbi]
  norm_num [extract, c1parsed]

theorem c1_load : load_lookup c1text (-1/2) (-1/2) = .error .indexError := by
  simp only [load_lookup, c1_parse, c1_make, c1_lookup]

theorem t4_make : TensorTree.make d4parsed = .ok T4 := by
  norm_num [TensorTree.make, get_nested_list_levels, d4parsed, T4]

theorem c10_mix_traverse : T4.traverse quadMix (-1/2) (-1/2) 1 = .error .indexError := by
  have hinner : ∀ f, traverseF T4 (f + 1) mixL 0 0 2 = .error .indexError := by
    intro f
    have hx : recenter (0 : ℚ) 2 = -(1/4 : ℚ) := by norm_num [recenter]
    have hct : child_table T4 (-(1/4 : ℚ)) (-(1/4 : ℚ)) 3 = [0, 4, 8, 12] := by
      norm_num [child_table, T4, get_branch_index]
    have hext : extract [PyVal.num 101, .num 102, .num 103, .num 104, .num 105] [0, 4, 8, 12]
        = .error .indexError := by norm_num [extract]
    simp only [mixL, traverseF, hx, hct, hext]
    norm_num
  have hinner99 : traverseF T4 99 (.list [PyVal.num 101, .num 102, .num 103, .num 104,
      .num 105]) 0 0 2 = .error .indexError := by
    have h := hinner 98
    rw [show (99 : Nat) = 98 + 1 from rfl]
    simpa [mixL] using h
  have hx1 : recenter (-1/2 : ℚ) 1 = 0 := by norm_num [recenter]
  have hct1 : child_table T4 0 0 2 = [3, 7, 11, 15] := by
    norm_num [child_table, T4, get_branch_index]
  have hext1 : extract [PyVal.num 0, .num 1, .num 2, mixL, .num 4, .num 5, .num 6, .num 7,
      .num 8, .num 9, .num 10, .num 11, .num 12, .num 13, .num 14, .num 15] [3, 7, 11, 15]
      = .ok [mixL, .num 7, .num 11, .num 15] := by norm_num [extract]
  have hdesc : descend (fun q => traverseF T4 99 q 0 0 2) [mixL, .num 7, .num 11, .num 15]
      = .error .indexError := by
    simp only [descend, mixL, hinner99]
    norm_num
  rw [traverse_eq_traverseF T4 quadMix (-1/2) (-1/2) 1 100
    (by norm_num [pySize, quadMix, mixL])]
  rw [show (100 : Nat) = 99 + 1 from rfl]
  rw [traverseF.eq_def]
  simp only [quadMix, hx1, hct1, hext1, hdesc]
  norm_num [mixL, PyVal.isNum]

theorem c10_type_traverse : T4.traverse quadT (-1/2) (-1/2) 1 = .error .typeError := by
  have hx1 : recenter (-1/2 : ℚ) 1 = 0 := by norm_num [recenter]
  have hct1 : child_table T4 0 0 2 = [3, 7, 11, 15] := by
    norm_num [child_table, T4, get_branch_index]
  have hext1 : extract [PyVal.num 0, .num 1, .num 2, .num 3, .num 4, .num 5, .num 6,
      .list [.num 70, .num 71],
      .num 8, .num 9, .num 10, .num 11, .num 12, .num 13, .num 14, .num 15] [3, 7, 11, 15]
      = .ok [.num 3, .list [.num 70, .num 71], .num 11, .num 15] := by norm_num [extract]
  have hdesc : descend (fun q => traverseF T4 99 q 0 0 2)
      [.num 3, .list [.num 70, .num 71], .num 11, .num 15] = .error .typeError := by
    simp only [descend]
  rw [traverse_eq_traverseF T4 quadT (-1/2) (-1/2) 1 100 (by norm_num [pySize, quadT])]
  rw [show (100 : Nat) = 99 + 1 from rfl]
  rw [traverseF.eq_def]
  simp only [quadT, hx1, hct1, hext1, hdesc]
  norm_num [PyVal.isNum]

theorem c3_parse : parse_ttree c3text = .ok [.num 1, .num 2] := by
  have htok : tokenize c3text = [obrace, ['1'], ['2'], cbrace] := by decide
  have v1 : pyFloat ['1'] = some ((1 : ℕ) : ℚ) := pyFloat_digits '1' [] 1 (by decide) rfl
  have v2 : pyFloat ['2'] = some ((2 : ℕ) : ℚ) := pyFloat_digits '2' [] 2 (by decide) rfl
  simp only [parse_ttree, htok, if_true]
  rw [show ([['1'], ['2'], cbrace] : List (List Char)).length = 2 + 1 from rfl]
  rw [show ([['1'], ['2'], cbrace] : List (List Char)) =
      [['1'], ['2']] ++ cbrace :: [] from rfl]
  rw [parseBranchF_num_run [['1'], ['2']] (2 + 1) [] (by decide) (by decide)]
  simp [v1, v2]

/-! ## Claims -/

/-- Claim C1, counterexample.  On the document text
`"\x7b \x7b1 2 3 4\x7d\x7b5 6 7 8\x7d\x7b9 10 11 12\x7d\x7b13 14 15 16\x7d \x7d"`
the claim asserts `lookup(-0.5, -0.5)` returns the leaf `[1,2,3,4]`; in
the code it instead raises `IndexError`, because `lookup` indexes the
4-child root at the branch-table positions 0, 4, 8, 12. -/
theorem c1_lookup_returns_no_leaf :
    load_lookup c1text (-1/2) (-1/2) = .error .indexError := c1_load

/-- Claim C1, amended.  Parsing the text yields the 4-child tree whose
child index 0 is the leaf `{1 2 3 4}`, and the root quadrant table for
`(-0.5, -0.5)` does select `{0, 4, 8, 12}` starting at child index 0;
but `lookup(-0.5, -0.5)` then fails with `IndexError` (positions 4, 8,
12 exceed the 4 children) and returns no leaf match. -/
theorem c1_lookup_fails_on_four_child_root :
    parse_ttree c1text = .ok c1parsed ∧
    c1parsed.length = 4 ∧
    c1parsed.get? 0 = some (.list [.num 1, .num 2, .num 3, .num 4]) ∧
    get_branch_index (-1/2) (-1/2) = [0, 4, 8, 12] ∧
    load_lookup c1text (-1/2) (-1/2) = .error .indexError :=
  ⟨c1_parse, rfl, rfl, c1_gbi, c1_load⟩

/-- Claim C2.  The 4-coordinate branch table returns `{0,4,8,12}`,
`{2,6,10,14}`, `{1,5,9,13}`, `{3,7,11,15}` and the leaf table
`{0..3}`, `{4..7}`, `{8..11}`, `{12..15}` for the four sign cases of
`(x, y)`, with `x < 0` strict, so the query `(0, 0)` selects
`{3,7,11,15}` and never `{0,4,8,12}`. -/
theorem c2_quadrant_tables :
    (∀ x y : ℚ,
      (x < 0 → y < 0 →
        get_branch_index x y = [0, 4, 8, 12] ∧ get_leaf_index x y = [0, 1, 2, 3]) ∧
      (x < 0 → 0 ≤ y →
        get_branch_index x y = [2, 6, 10, 14] ∧ get_leaf_index x y = [4, 5, 6, 7]) ∧
      (0 ≤ x → y < 0 →
        get_branch_index x y = [1, 5, 9, 13] ∧ get_leaf_index x y = [8, 9, 10, 11]) ∧
      (0 ≤ x → 0 ≤ y →
        get_branch_index x y = [3, 7, 11, 15] ∧ get_leaf_index x y = [12, 13, 14, 15])) ∧
    get_branch_index 0 0 = [3, 7, 11, 15] ∧ get_branch_index 0 0 ≠ [0, 4, 8, 12] := by
  refine ⟨fun x y => ⟨?_, ?_, ?_, ?_⟩, ?_, ?_⟩
  · intro hx hy; simp [get_branch_index, get_leaf_index, hx, hy]
  · intro hx hy; simp [get_branch_index, get_leaf_index, hx, not_lt.2 hy]
  · intro hx hy; simp [get_branch_index, get_leaf_index, not_lt.2 hx, hy]
  · intro hx hy; simp [get_branch_index, get_leaf_index, not_lt.2 hx, not_lt.2 hy]
  · norm_num [get_branch_index]
  · norm_num [get_branch_index]

/-- Claim C2, witness at `(x, y) = (-1, -1)`. -/
theorem c2_quadrant_tables_witness :
    get_branch_index (-1) (-1) = [0, 4, 8, 12] ∧ get_leaf_index (-1) (-1) = [0, 1, 2, 3] :=
  (c2_quadrant_tables.1 (-1) (-1)).1 (by norm_num) (by norm_num)

/-- Claim C3, counterexample.  The claim asserts consecutive numbers
form one `Leaf` node appended as a single child; parsing
`"\x7b1 2\x7d"` instead appends the two numbers as two separate float
children of the root branch. -/
theorem c3_numbers_are_not_one_leaf :
    parse_ttree c3text = .ok [.num 1, .num 2] ∧
    (parse_ttree c3text).map List.length = .ok 2 := by
  refine ⟨c3_parse, ?_⟩
  rw [c3_parse]
  rfl

/-- Claim C3, amended.  Each of `k` consecutive number tokens between
structural brace tokens is appended to the current branch as its own
bare float child: parsing the token run yields exactly `k` numeric
children, not one collected `Leaf` child. -/
theorem c3_numbers_become_separate_children :
    ∀ (ts : List (List Char)),
      (∀ t ∈ ts, t ≠ obrace ∧ t ≠ cbrace ∧ (pyFloat t).isSome) →
      parseBranchF (ts.length + 1) (ts ++ [cbrace]) =
        .ok (ts.map (fun t => PyVal.num ((pyFloat t).getD 0)), []) ∧
      (ts.map (fun t => PyVal.num ((pyFloat t).getD 0))).length = ts.length := by
  intro ts h
  refine ⟨?_, by simp⟩
  have := parseBranchF_num_run ts (ts.length + 1) [] h (by omega)
  simpa using this

/-- Claim C3, amended, witness at the token run `1 2`. -/
theorem c3_numbers_become_separate_children_witness :
    parseBranchF 3 [['1'], ['2'], cbrace] =
      .ok ([PyVal.num ((pyFloat ['1']).getD 0), PyVal.num ((pyFloat ['2']).getD 0)], []) := by
  have h := (c3_numbers_become_separate_children [['1'], ['2']] (by decide)).1
  simpa using h

/-- Claim C4.  The tokenizer drops the minus sign of a signed decimal
literal that has no exponent: `tokenize("-0.5")` yields the single
token `0.5` (the `-` is silently skipped), even though the same
literal with an exponent (`-0.5e0`) and the plus-signed literal
(`+0.5`) are emitted whole, and separator runs yield no token.  The
exponent group of the number alternative in the source regex is
quantified with `+` instead of `?`, and `-` is not in the fallback
character class. -/
theorem c4_minus_sign_dropped :
    tokenize c4minus = [['0', '.', '5']] ∧
    tokenize c4exp = [['-', '0', '.', '5', 'e', '0']] ∧
    tokenize c4plus = [['+', '0', '.', '5']] ∧
    tokenize c4seps = [] :=
  ⟨by decide, by decide, by decide, by decide⟩

/-- Claim C5, counterexample.  The claim asserts `lookup`/`traverse`
fails on every tree in which a visited branch has fewer children than
the fixed-size index table expects; the code only raises when a
demanded index is actually absent: on a buildable 13-child root (fewer
than the 16 slots the branch table spans) the query `(-1, -1)` demands
slots 0, 4, 8, 12, all present, and `lookup` returns normally with the
four selected single-entry leaves. -/
theorem c5_short_branch_can_succeed :
    vs13.length = 13 ∧
    TensorTree.make vs13 = .ok ⟨vs13, 2⟩ ∧
    get_branch_index (-1) (-1) = [0, 4, 8, 12] ∧
    TensorTree.lookup ⟨vs13, 2⟩ (-1) (-1) =
      .ok [.list [.num 0], .list [.num 4], .list [.num 8], .list [.num 12]] := by
  refine ⟨rfl, by norm_num [TensorTree.make, get_nested_list_levels, vs13],
    by norm_num [get_branch_index], ?_⟩
  simp only [TensorTree.lookup]
  rw [show get_branch_index (-1) (-1) = [0, 4, 8, 12] from by norm_num [get_branch_index]]
  rw [show extract vs13 [0, 4, 8, 12] =
      .ok [.list [.num 0], .list [.num 4], .list [.num 8], .list [.num 12]] from rfl]
  simp only [List.mapM, List.mapM.loop, traverse_single]
  rfl

/-- Claim C5, amended.  Whenever the fixed-size branch table demands a
child index that is absent from the root branch, `lookup` fails with
an `IndexError` rather than silently truncating, wrapping around, or
returning a partial result; in particular a branch with only 10
children indexed with the 16-slot table fails for every query, since
every quadrant group demands an index of at least 10; and a successful
extraction returns exactly one child per table index. -/
theorem c5_missing_index_raises_indexerror :
    (∀ (T : TensorTree) (x y : ℚ),
      (∃ i ∈ get_branch_index x y, T.parsed.length ≤ i) →
      T.lookup x y = .error .indexError) ∧
    (∀ (vs : List PyVal) (d : Nat) (x y : ℚ), vs.length = 10 →
      TensorTree.lookup ⟨vs, d⟩ x y = .error .indexError) ∧
    (∀ (l vs : List PyVal) (is : List Nat), extract l is = .ok vs → vs.length = is.length) := by
  refine ⟨?_, ?_, ?_⟩
  · intro T x y h
    simp only [TensorTree.lookup]
    rw [extract_error_of_oob h]
  · intro vs d x y hlen
    have hoob : ∃ i ∈ get_branch_index x y, vs.length ≤ i := by
      rcases lt_or_le x 0 with hx | hx <;> rcases lt_or_le y 0 with hy | hy
      · exact ⟨12, by simp [get_branch_index, hx, hy], by omega⟩
      · exact ⟨14, by simp [get_branch_index, hx, not_lt.2 hy], by omega⟩
      · exact ⟨13, by simp [get_branch_index, not_lt.2 hx, hy], by omega⟩
      · exact ⟨15, by simp [get_branch_index, not_lt.2 hx, not_lt.2 hy], by omega⟩
    simp only [TensorTree.lookup]
    rw [extract_error_of_oob hoob]
  · intro l vs is h
    exact extract_length h

/-- Claim C5, amended, witness: a 10-child tree fails at the query
`(1, 1)`. -/
theorem c5_missing_index_raises_indexerror_witness :
    TensorTree.lookup ⟨vs10, 1⟩ 1 1 = .error .indexError :=
  c5_missing_index_raises_indexerror.2.1 vs10 1 1 1 rfl

/-- Claim C6.  When the token sequence is exhausted before a matching
closing brace (any fuel, any run of `\x7b` and number tokens with no
`\x7d`), parsing fails with the `StopIteration` of the exhausted token
generator and never returns a tree; in particular on the document text
`"\x7b1 2 3"`. -/
theorem c6_unexpected_end_of_input :
    (∀ (f : Nat) (ts : List (List Char)),
      (∀ t ∈ ts, t ≠ cbrace ∧ (t = obrace ∨ (pyFloat t).isSome)) →
      parseBranchF f ts = .error .stopIteration) ∧
    parse_ttree c6text = .error .stopIteration :=
  ⟨parseBranchF_unclosed, rfl⟩

/-- Claim C6, witness at the token run `1 2 3`. -/
theorem c6_unexpected_end_of_input_witness :
    parseBranchF 3 [['1'], ['2'], ['3']] = .error .stopIteration :=
  c6_unexpected_end_of_input.1 3 [['1'], ['2'], ['3']] (by decide)

/-- Claim C7.  Whenever the first token of the input is not `\x7b`,
`parse_ttree` fails with the `ValueError` raised for a tensor tree not
starting with a brace, building no tree. -/
theorem c7_missing_opening_brace :
    ∀ (s : String) (t : List Char), (tokenize s).head? = some t → t ≠ obrace →
      parse_ttree s = .error .valueErrorBrace := by
  intro s t h ht
  cases htok : tokenize s with
  | nil => rw [htok] at h; cases h
  | cons t0 rest =>
    rw [htok] at h
    simp only [List.head?_cons] at h
    injection h with h0
    subst h0
    simp only [parse_ttree, htok]
    rw [if_neg ht]

/-- Claim C7, witness at the document text `"1 2 3"`. -/
theorem c7_missing_opening_brace_witness :
    parse_ttree c7text = .error .valueErrorBrace :=
  c7_missing_opening_brace c7text ['1'] (by decide) (by decide)

/-- Claim C8.  The 3-coordinate branch table returns `{0,2,4,6}` when
`|x| <= 0.5` and `{1,3,5,7}` when `|x| > 0.5`, and the 3-coordinate
leaf table returns `{0,1,2,3}` and `{4,5,6,7}` respectively. -/
theorem c8_isotropic_tables :
    ∀ x : ℚ,
      (|x| ≤ 1/2 → get_border3 x = [0, 2, 4, 6] ∧ get_lorder3 x = [0, 1, 2, 3]) ∧
      (1/2 < |x| → get_border3 x = [1, 3, 5, 7] ∧ get_lorder3 x = [4, 5, 6, 7]) := by
  intro x
  constructor
  · intro h
    have h2 : |x| ≤ 2⁻¹ := by rwa [one_div] at h
    simp [get_border3, get_lorder3, h2]
  · intro h
    have h2 : ¬(|x| ≤ 2⁻¹) := by rw [← one_div]; exact not_le.2 h
    simp [get_border3, get_lorder3, h2]

/-- Claim C8, witness at `x = 0` and `x = 1`. -/
theorem c8_isotropic_tables_witness :
    (get_border3 0 = [0, 2, 4, 6] ∧ get_lorder3 0 = [0, 1, 2, 3]) ∧
    (get_border3 1 = [1, 3, 5, 7] ∧ get_lorder3 1 = [4, 5, 6, 7]) :=
  ⟨(c8_isotropic_tables 0).1 (by norm_num), (c8_isotropic_tables 1).2 (by norm_num)⟩

/-- Claim C9.  `lookup` mutates nothing: in the state-threaded
embedding of the method the state coming out of a call is the state
that went in (hence `parsed` and the cached `depth` are unchanged),
and a second call with the same query on the resulting state returns
the same result. -/
theorem c9_lookup_is_read_only :
    ∀ (T : TensorTree) (xp yp : ℚ),
      (lookupS T xp yp).2 = T ∧
      (lookupS T xp yp).2.parsed = T.parsed ∧
      (lookupS T xp yp).2.depth = T.depth ∧
      (lookupS ((lookupS T xp yp).2) xp yp).1 = (lookupS T xp yp).1 := by
  intro T xp yp
  have h := lookupS_state T xp yp
  exact ⟨h, by rw [h], by rw [h], by rw [h]⟩

/-- Claim C10, counterexample.  The claim asserts a selected slot group
mixing bare numbers with lists always raises `TypeError`; on the node
`quadMix` the query `(-1/2, -1/2)` selects the mixed group
`[mixL, 7, 11, 15]` (a list and three floats), yet `traverse` raises
`IndexError` - the recursion into the 5-entry list `mixL` fails on a
missing child slot before the loop ever reaches a bare number. -/
theorem c10_mixed_slots_raise_indexerror :
    recenter (-1/2 : ℚ) 1 = 0 ∧
    child_table T4 0 0 2 = [3, 7, 11, 15] ∧
    extract [PyVal.num 0, .num 1, .num 2, mixL, .num 4, .num 5, .num 6, .num 7,
        .num 8, .num 9, .num 10, .num 11, .num 12, .num 13, .num 14, .num 15]
        [3, 7, 11, 15] = .ok [mixL, .num 7, .num 11, .num 15] ∧
    ([mixL, PyVal.num 7, .num 11, .num 15].all PyVal.isNum) = false ∧
    ([mixL, PyVal.num 7, .num 11, .num 15].any PyVal.isNum) = true ∧
    T4.traverse quadMix (-1/2) (-1/2) 1 = .error .indexError ∧
    PyErr.indexError ≠ PyErr.typeError := by
  refine ⟨by norm_num [recenter], by norm_num [child_table, T4, get_branch_index],
    by norm_num [extract], by simp [PyVal.isNum, mixL], by simp [PyVal.isNum],
    c10_mix_traverse, by decide⟩

/-- Claim C10, amended.  `traverse` is not total: a node that is itself
a bare number always raises `TypeError` (taking `len()` of a float);
whenever the selected slot group contains a bare number the slot loop
raises some error rather than returning a value or skipping the slot -
a `TypeError` unless an earlier list slot's recursion fails first; and
on `quadT`, where the bare number comes first in the mixed group, the
error is a `TypeError`. -/
theorem c10_traverse_mixed_slots_always_raise :
    (∀ (T : TensorTree) (q : ℚ) (xp yp : ℚ) (n : Nat),
      T.traverse (.num q) xp yp n = .error .typeError) ∧
    (∀ (rec : PyVal → Except PyErr PyVal) (sub : List PyVal),
      (∃ v ∈ sub, v.isNum = true) → returnedOk (descend rec sub) = false) ∧
    (∀ (T : TensorTree) (f : Nat) (l : List PyVal) (xp yp : ℚ) (n : Nat) (sub : List PyVal),
      l.length ≠ 1 →
      extract l (child_table T (recenter xp n) (recenter yp n) (n + 1)) = .ok sub →
      sub.all PyVal.isNum = false →
      sub.any PyVal.isNum = true →
      returnedOk (traverseF T (f + 1) (.list l) xp yp n) = false) ∧
    T4.traverse quadT (-1/2) (-1/2) 1 = .error .typeError := by
  refine ⟨?_, ?_, ?_, c10_type_traverse⟩
  · intro T q xp yp n
    show traverseF T (pySize (.num q)) (.num q) xp yp n = .error .typeError
    rw [show pySize (PyVal.num q) = 0 + 1 from by simp [pySize]]
    rfl
  · intro rec sub h
    rcases @descend_error_of_num rec sub h with ⟨e, he⟩
    rw [he]
    rfl
  · intro T f l xp yp n sub hlen hext hall hany
    rcases @descend_error_of_num
        (fun q => traverseF T f q (recenter xp n) (recenter yp n) (n + 1)) sub
        (List.any_eq_true.1 hany) with ⟨e, he⟩
    simp [traverseF, hlen, hext, hall, he, returnedOk]

/-- Claim C10, amended, witness: concrete mixed slot group reached with
recentered coordinates `(0, 0)` from the query `(-1, -1)` at level 0. -/
theorem c10_traverse_mixed_slots_always_raise_witness :
    returnedOk (traverseF T4 (0 + 1)
      (.list [PyVal.num 0, .num 1, .num 2, .num 3, .num 4, .num 5, .num 6,
        .list [.num 70, .num 71], .num 8, .num 9, .num 10, .num 11, .num 12, .num 13,
        .num 14, .num 15]) (-1) (-1) 0) = false := by
  refine c10_traverse_mixed_slots_always_raise.2.2.1 T4 0 _ (-1) (-1) 0
    [.num 3, .list [.num 70, .num 71], .num 11, .num 15] (by decide) ?_ rfl rfl
  simp [recenter, child_table, T4, get_branch_index, extract, neg_lt_zero,
    lt_self_iff_false]
